import Mathlib

/-!
Shallow embedding of the Qwant engine adapter of websurfx
(`src/engines/qwant.rs`) together with the collaborator components the
adapter uses.  Only `qwant.rs` is given as source; the shared components
(`SearchResultParser`, `SearchResult`, `EngineError`, the transport
helper) are modelled from the specification, as their doc comments note.
-/

/-- Model of a leaf HTML element located by a relative selector inside an
item container; `innerHtml` models `scraper::ElementRef::inner_html`. -/
structure Node where
  innerHtml : String
deriving DecidableEq, Repr

/-- Model of an item-container (anchor) element: its inner HTML together
with relative selection of descendant elements, as performed by
`result.select(&selector)` in the extractor.  `sub s` is the list of
elements matching selector string `s`, in document order. -/
structure Anchor where
  innerHtml : String
  sub : String → List Node

/-- Model of a parsed HTML document (`scraper::Html`): top-level selection
`document.select(&selector)` returns the matching elements in document
order, as a function of the selector string. -/
structure Html where
  topSelect : String → List Anchor

/-- Modelled from the spec: the Engine Error taxonomy of
`models/engine_models.rs` (not under src/): `EmptyResultSet`,
`RequestError`, `UnexpectedError`.  The attached human-readable context
chain carries no decision-relevant data and is omitted. -/
inductive EngineError where
  | EmptyResultSet
  | RequestError
  | UnexpectedError
deriving DecidableEq, Repr

/-- Modelled from the spec: the normalized Result Record of
`models/aggregation_models.rs` (not under src/): title, url, description
and the contributing-engine names. -/
structure SearchResult where
  title : String
  url : String
  description : String
  engine : List String
deriving DecidableEq, Repr

/-- Modelled from the spec: `SearchResult::new` stores the given texts and
engine names. -/
def SearchResult.new (title url description : String) (engine : List String) :
    SearchResult :=
  ⟨title, url, description, engine⟩

/-- Modelled from the spec: the Result Extractor configuration of
`engines/search_result_parser.rs` (not under src/): five selector strings
supplied at adapter construction. -/
structure SearchResultParser where
  title_container_selector : String
  no_result_container_selector : String
  title_selector : String
  link_selector : String
  desc_selector : String
deriving DecidableEq, Repr

/-- Modelled from the spec: `SearchResultParser::new` parses all five
selector strings eagerly and fails on invalid selector syntax.  Every
selector string the Qwant adapter supplies is syntactically valid CSS, so
the model keeps the `Except` shape but always succeeds; no claim concerns
an invalid selector. -/
def SearchResultParser.new (tc nrc t l d : String) :
    Except EngineError SearchResultParser :=
  .ok ⟨tc, nrc, t, l, d⟩

/-- Modelled from the spec: `parse_for_no_results` applies the
no-result-container selector to the document; a non-empty result means the
upstream explicitly reported zero results. -/
def SearchResultParser.parse_for_no_results (p : SearchResultParser)
    (doc : Html) : List Anchor :=
  doc.topSelect p.no_result_container_selector

/-- Modelled from the spec: for one anchor, locate the first matching
title, link and description element using the configured relative
selectors; a triple is produced only when all three are present. -/
def SearchResultParser.extractTriple (p : SearchResultParser) (a : Anchor) :
    Option (Node × Node × Node) :=
  match (a.sub p.title_selector).head?, (a.sub p.link_selector).head?,
      (a.sub p.desc_selector).head? with
  | some t, some u, some d => some (t, u, d)
  | _, _, _ => none

/-- One insertion into the url-keyed mapping: a later item with the same
key overwrites an earlier one, and insertion order is otherwise kept (the
spec states extraction order is preserved as insertion order). -/
def insertKV (m : List (String × SearchResult)) (k : String)
    (v : SearchResult) : List (String × SearchResult) :=
  m.filter (fun q => q.1 ≠ k) ++ [(k, v)]

/-- The mapping keyed by url that the extractor builds from the record
list, inserting in document order.  The program stores this mapping in a
`std::collections::HashMap` (qwant.rs lines 8 and 65), whose iteration
order is unspecified: the entry order of this list records the insertion
sequence of the model and is NOT an observable of the program — only
order-insensitive readings of this list (its content, given by
`hashMapContent`) are faithful to the returned `HashMap`. -/
def collectResults (rs : List SearchResult) : List (String × SearchResult) :=
  rs.foldl (fun m r => insertKV m r.url r) []

/-- The observable value of the `HashMap` returned by `Qwant::results`:
an unordered `HashMap` is determined by its key-to-record association
alone, so its value is modelled as the lookup function over the collected
entries. -/
def hashMapContent (entries : List (String × SearchResult)) :
    String → Option SearchResult :=
  fun k => ((entries.filter (fun pr => pr.1 = k)).map (fun pr => pr.2)).head?

/-- Modelled from the spec: `parse_for_results` selects the
title-container elements as anchors, locates the per-anchor triple,
invokes the mapper on each complete triple (`None` results and anchors
missing an element are skipped), and returns the mapping keyed by url.
The document structure itself is never unusable in the model, so the
result is always `ok`, keeping the `Except` shape of the source. -/
def SearchResultParser.parse_for_results (p : SearchResultParser) (doc : Html)
    (builder : Node → Node → Node → Option SearchResult) :
    Except EngineError (List (String × SearchResult)) :=
  .ok (collectResults ((doc.topSelect p.title_container_selector).filterMap
    (fun a =>
      match p.extractTriple a with
      | some (t, u, d) => builder t u d
      | none => none)))

/-- Valid characters of an HTTP header name in the http crate: letters
(uppercase is normalized to lowercase), digits and the token punctuation
set, given here by character code. -/
def isValidHeaderNameChar (c : Char) : Bool :=
  let n := c.toNat
  (97 ≤ n && n ≤ 122) || (65 ≤ n && n ≤ 90) || (48 ≤ n && n ≤ 57) ||
    (n == 33 || n == 35 || n == 36 || n == 37 || n == 38 || n == 39 ||
     n == 42 || n == 43 || n == 45 || n == 46 || n == 94 || n == 95 ||
     n == 96 || n == 124 || n == 126)

/-- Validity of an HTTP header name: non-empty and made of valid name
characters. -/
def isValidHeaderName (s : String) : Bool :=
  !s.isEmpty && s.toList.all isValidHeaderNameChar

/-- Valid characters of an HTTP header value in the http crate: tab, or
any character of code at least 32 other than DEL. -/
def isValidHeaderValueChar (c : Char) : Bool :=
  c.toNat == 9 || (32 ≤ c.toNat && c.toNat != 127)

/-- Validity of an HTTP header value. -/
def isValidHeaderValue (s : String) : Bool :=
  s.toList.all isValidHeaderValueChar

/-- The four header entries `Qwant::results` puts into its `HashMap`
(qwant.rs lines 78-89).  The four keys are pairwise distinct string
literals, so the `HashMap` is modelled by its entry list. -/
def qwantHeaderEntries (user_agent : String) : List (String × String) :=
  [("USER_AGENT", user_agent),
   ("REFERER", "https://google.com/"),
   ("CONTENT_TYPE", "application/x-www-form-urlencoded"),
   ("COOKIE", "ab_test_group=1; home=daily")]

/-- Lowercasing of a header name, character by character, as the http
crate normalizes uppercase letters in custom header names. -/
def headerNameLower (s : String) : String :=
  ⟨s.data.map Char.toLower⟩

/-- Model of `HeaderMap::try_from` over the entry list: every name and
value must be valid; names are normalized to lowercase.  An invalid entry
makes the whole conversion fail. -/
def headerMapTryFrom (entries : List (String × String)) :
    Except Unit (List (String × String)) :=
  if entries.all (fun kv => isValidHeaderName kv.1 && isValidHeaderValue kv.2)
  then .ok (entries.map (fun kv => (headerNameLower kv.1, kv.2)))
  else .error ()

/-- URL construction of `Qwant::results` (qwant.rs lines 68-75): page
values 1 and 0 both produce the first-page parameter. -/
def qwant_url (query : String) (page : Nat) : String :=
  if page = 1 ∨ page = 0 then
    "https://www.qwant.com/?q=" ++ query ++ "&s=1"
  else
    "https://www.qwant.com/?q=" ++ query ++ "&s=" ++ toString page

/-- Model of `str::trim`: drop leading and trailing whitespace
characters. -/
def strTrim (s : String) : String :=
  ⟨((s.data.dropWhile Char.isWhitespace).reverse.dropWhile
      Char.isWhitespace).reverse⟩

/-- The mapper closure `Qwant::results` passes to `parse_for_results`
(qwant.rs lines 102-108): trim each field and tag with the engine name. -/
def qwantBuilder (title url desc : Node) : Option SearchResult :=
  some (SearchResult.new (strTrim title.innerHtml) (strTrim url.innerHtml)
    (strTrim desc.innerHtml) ["qwant"])

/-- The parser configuration `Qwant::new` supplies (qwant.rs lines
31-37). -/
def qwantParser : SearchResultParser :=
  ⟨"._2NDle nt3hI",
   "._2NDle nt3hI",
   "._35zId _3A7p7 RMB_d eoseI>a",
   "._35zId _3A7p7 RMB_d eoseI>a",
   "._2-LMx XqdKF _1UMq0 _29nLp _3PXjk>span"⟩

/-- `Qwant::new` (qwant.rs lines 29-39): builds the adapter around the
parser configured with the five Qwant selector strings. -/
def Qwant.new : Except EngineError SearchResultParser :=
  SearchResultParser.new "._2NDle nt3hI" "._2NDle nt3hI"
    "._35zId _3A7p7 RMB_d eoseI>a" "._35zId _3A7p7 RMB_d eoseI>a"
    "._2-LMx XqdKF _1UMq0 _29nLp _3PXjk>span"

/-- Per-anchor record extraction as instantiated by `Qwant::results`:
the complete triple, mapped through the Qwant builder. -/
def extractItem (p : SearchResultParser) (a : Anchor) : Option SearchResult :=
  match p.extractTriple a with
  | some (t, u, d) => qwantBuilder t u d
  | none => none

/-- The record list the extraction stage of `Qwant::results` produces for
a document, in document order. -/
def extractRecords (p : SearchResultParser) (doc : Html) : List SearchResult :=
  (doc.topSelect p.title_container_selector).filterMap (extractItem p)

/-- `Qwant::results` (qwant.rs lines 58-110).  `self` is the parser held
by the adapter; `fetch` models `fetch_html_from_upstream` composed with
`Html::parse_document` (modelled from the spec: the transport collaborator
receives the url and headers and yields the parsed document, or the
`EngineError` the adapter propagates with `?`); `_safe_search` is accepted
and unused, as in the source. -/
def Qwant.results (self : SearchResultParser) (query : String) (page : Nat)
    (user_agent : String)
    (fetch : String → List (String × String) → Except EngineError Html)
    (_safe_search : Nat) : Except EngineError (List (String × SearchResult)) :=
  match headerMapTryFrom (qwantHeaderEntries user_agent) with
  | .error _ => .error .UnexpectedError
  | .ok header_map =>
    match fetch (qwant_url query page) header_map with
    | .error e => .error e
    | .ok document =>
      if !(self.parse_for_no_results document).isEmpty then
        .error .EmptyResultSet
      else
        self.parse_for_results document qwantBuilder

/-! Helper lemmas about the evaluation of `Qwant.results`. -/

/-- With the Qwant mapper, the extractor returns the mapping collected
from the records extracted in document order. -/
theorem parse_for_results_qwantBuilder (p : SearchResultParser) (doc : Html) :
    p.parse_for_results doc qwantBuilder =
      .ok (collectResults (extractRecords p doc)) := rfl

/-- Evaluation of `Qwant.results` on the success path: headers build,
fetch succeeds and no no-result marker is present. -/
theorem results_eval (self : SearchResultParser) (query : String) (page : Nat)
    (user_agent : String)
    (fetch : String → List (String × String) → Except EngineError Html)
    (ss : Nat) (hm : List (String × String)) (doc : Html)
    (hh : headerMapTryFrom (qwantHeaderEntries user_agent) = .ok hm)
    (hf : fetch (qwant_url query page) hm = .ok doc)
    (hnr : self.parse_for_no_results doc = []) :
    Qwant.results self query page user_agent fetch ss =
      .ok (collectResults (extractRecords self doc)) := by
  simp only [Qwant.results, hh, hf, hnr, List.isEmpty_nil, Bool.not_true,
    Bool.false_eq_true, if_false]
  exact parse_for_results_qwantBuilder self doc

/-- Evaluation of `Qwant.results` when the no-result marker matches. -/
theorem results_marker_eval (self : SearchResultParser) (query : String)
    (page : Nat) (user_agent : String)
    (fetch : String → List (String × String) → Except EngineError Html)
    (ss : Nat) (hm : List (String × String)) (doc : Html)
    (hh : headerMapTryFrom (qwantHeaderEntries user_agent) = .ok hm)
    (hf : fetch (qwant_url query page) hm = .ok doc)
    (hnr : self.parse_for_no_results doc ≠ []) :
    Qwant.results self query page user_agent fetch ss =
      .error .EmptyResultSet := by
  have hne : (self.parse_for_no_results doc).isEmpty = false := by
    cases h : self.parse_for_no_results doc with
    | nil => exact absurd h hnr
    | cons a as => rfl
  simp [Qwant.results, hh, hf, hne]

/-- Inversion of `Qwant.results`: a successful call went through a built
header map, a fetched document without no-result marker, and returned the
collected extraction. -/
theorem results_ok_inv (self : SearchResultParser) (query : String)
    (page : Nat) (user_agent : String)
    (fetch : String → List (String × String) → Except EngineError Html)
    (ss : Nat) (m : List (String × SearchResult))
    (h : Qwant.results self query page user_agent fetch ss = .ok m) :
    ∃ hm doc, headerMapTryFrom (qwantHeaderEntries user_agent) = .ok hm ∧
      fetch (qwant_url query page) hm = .ok doc ∧
      self.parse_for_no_results doc = [] ∧
      m = collectResults (extractRecords self doc) := by
  unfold Qwant.results at h
  cases hh : headerMapTryFrom (qwantHeaderEntries user_agent) with
  | error e => simp only [hh] at h; exact Except.noConfusion h
  | ok hm =>
    simp only [hh] at h
    cases hf : fetch (qwant_url query page) hm with
    | error e => simp only [hf] at h; exact Except.noConfusion h
    | ok doc =>
      simp only [hf] at h
      cases hnr : self.parse_for_no_results doc with
      | cons a as =>
        simp only [hnr, List.isEmpty_cons, Bool.not_false, if_true] at h
        exact Except.noConfusion h
      | nil =>
        simp only [hnr, List.isEmpty_nil, Bool.not_true, Bool.false_eq_true,
          if_false, parse_for_results_qwantBuilder, Except.ok.injEq] at h
        exact ⟨hm, doc, rfl, hf, hnr, h.symm⟩

/-! Fixture values used to evaluate the theorems on concrete inputs. -/

/-- Fixture parser with five pairwise distinct selector strings, used to
evaluate the generic results method on concrete documents. -/
def fixtureParser : SearchResultParser :=
  ⟨"item", "nores", "t", "u", "d"⟩

/-- Fixture anchor holding one title, one link and one description
element. -/
def fixtureAnchor (t u d : String) : Anchor :=
  ⟨"", fun sel =>
    if sel = "t" then [⟨t⟩]
    else if sel = "u" then [⟨u⟩]
    else if sel = "d" then [⟨d⟩]
    else []⟩

/-- Fixture anchor missing its description element. -/
def fixtureBadAnchor : Anchor :=
  ⟨"", fun sel =>
    if sel = "t" then [⟨"bad title"⟩]
    else if sel = "u" then [⟨"bad-url"⟩]
    else []⟩

/-- Fixture document whose item containers are the given anchors and
which carries no no-result marker for `fixtureParser`. -/
def fixtureDoc (anchors : List Anchor) : Html :=
  ⟨fun sel => if sel = "item" then anchors else []⟩

/-- Fixture document for the degenerate Qwant configuration: one element
matches the shared title-container and no-result-marker selector. -/
def fixtureQwantDoc : Html :=
  ⟨fun sel =>
    if sel = "._2NDle nt3hI" then [fixtureAnchor "T" "u" "D"] else []⟩

/-! The claims. -/

/-- C3: for page values 0 and 1 the URL built by `Qwant::results` carries
the first-page pagination parameter `s=1`; for every other page value `p`
the pagination parameter equals `p` verbatim. -/
theorem qwant_url_pagination (query : String) (page : Nat) :
    ((page = 0 ∨ page = 1) →
      qwant_url query page = "https://www.qwant.com/?q=" ++ query ++ "&s=1") ∧
    (page ≠ 0 → page ≠ 1 →
      qwant_url query page =
        "https://www.qwant.com/?q=" ++ query ++ "&s=" ++ toString page) := by
  constructor
  · rintro (rfl | rfl) <;> simp [qwant_url]
  · intro h0 h1
    unfold qwant_url
    rw [if_neg (fun h => h.elim h1 h0)]

/-- Witness for C3 at pages 0 and 7. -/
theorem qwant_url_pagination_witness :
    qwant_url "apple" 0 = "https://www.qwant.com/?q=apple&s=1" ∧
    qwant_url "apple" 7 = "https://www.qwant.com/?q=apple&s=7" := by
  refine ⟨((qwant_url_pagination "apple" 0).1 (Or.inl rfl)).trans (by decide),
    ((qwant_url_pagination "apple" 7).2 (by decide) (by decide)).trans (by decide)⟩

/-- C5: for every user agent accepted by header-value validation, the
header map built by `Qwant::results` is exactly the four headers (the
caller-supplied user agent, the fixed referer, the fixed content type and
the fixed cookie pair), with four pairwise-distinct names, never fewer and
never duplicated. -/
theorem qwant_header_map_exact_four (user_agent : String)
    (h : isValidHeaderValue user_agent = true) :
    headerMapTryFrom (qwantHeaderEntries user_agent) =
      .ok [("user_agent", user_agent),
           ("referer", "https://google.com/"),
           ("content_type", "application/x-www-form-urlencoded"),
           ("cookie", "ab_test_group=1; home=daily")] ∧
    ((qwantHeaderEntries user_agent).map
      (fun kv => headerNameLower kv.1)).Nodup ∧
    (qwantHeaderEntries user_agent).length = 4 := by
  have hn1 : headerNameLower "USER_AGENT" = "user_agent" := by decide
  have hn2 : headerNameLower "REFERER" = "referer" := by decide
  have hn3 : headerNameLower "CONTENT_TYPE" = "content_type" := by decide
  have hn4 : headerNameLower "COOKIE" = "cookie" := by decide
  have hall : (qwantHeaderEntries user_agent).all
      (fun kv => isValidHeaderName kv.1 && isValidHeaderValue kv.2) = true := by
    simp only [qwantHeaderEntries, List.all_cons, List.all_nil, h]
    decide
  refine ⟨?_, ?_, rfl⟩
  · unfold headerMapTryFrom
    rw [if_pos hall]
    simp [qwantHeaderEntries, hn1, hn2, hn3, hn4]
  · simp [qwantHeaderEntries, hn1, hn2, hn3, hn4]

/-- Witness for C5 at a concrete browser-like user agent. -/
theorem qwant_header_map_exact_four_witness :
    isValidHeaderValue "Mozilla/5.0" = true ∧
    headerMapTryFrom (qwantHeaderEntries "Mozilla/5.0") =
      .ok [("user_agent", "Mozilla/5.0"),
           ("referer", "https://google.com/"),
           ("content_type", "application/x-www-form-urlencoded"),
           ("cookie", "ab_test_group=1; home=daily")] :=
  ⟨by decide, (qwant_header_map_exact_four "Mozilla/5.0" (by decide)).1⟩

/-- C8: whenever construction of the header map fails, `Qwant::results`
returns an error tagged `UnexpectedError`; the failure is never silently
dropped. -/
theorem qwant_header_failure_unexpected (self : SearchResultParser)
    (query : String) (page : Nat) (user_agent : String)
    (fetch : String → List (String × String) → Except EngineError Html)
    (ss : Nat)
    (h : headerMapTryFrom (qwantHeaderEntries user_agent) = .error ()) :
    Qwant.results self query page user_agent fetch ss =
      .error .UnexpectedError := by
  simp [Qwant.results, h]

/-- Witness for C8 at a user agent holding a line break, an invalid
header value. -/
theorem qwant_header_failure_unexpected_witness :
    headerMapTryFrom (qwantHeaderEntries "agent\nwith-newline") = .error () ∧
    Qwant.results qwantParser "q" 1 "agent\nwith-newline"
      (fun _ _ => .error .RequestError) 0 = .error .UnexpectedError :=
  ⟨rfl, qwant_header_failure_unexpected qwantParser "q" 1 "agent\nwith-newline"
    (fun _ _ => .error .RequestError) 0 rfl⟩

/-- C10: the safe-search level has no influence on the outcome of
`Qwant::results`: for every fixed query, page, user agent and transport,
any two safe-search values yield the same result. -/
theorem qwant_safe_search_no_influence (self : SearchResultParser)
    (query : String) (page : Nat) (user_agent : String)
    (fetch : String → List (String × String) → Except EngineError Html)
    (a b : Nat) :
    Qwant.results self query page user_agent fetch a =
      Qwant.results self query page user_agent fetch b := rfl

/-- Concrete header map produced for the fixture user agent. -/
def fixtureHeaderMap : List (String × String) :=
  [("user_agent", "Mozilla/5.0"),
   ("referer", "https://google.com/"),
   ("content_type", "application/x-www-form-urlencoded"),
   ("cookie", "ab_test_group=1; home=daily")]

/-- C1: for every fetched document in which the no-result-marker selector
matches at least one element, `Qwant::results` returns
`Err(EmptyResultSet)` and performs no regular result extraction: the
outcome is `EmptyResultSet` whatever item containers the document also
holds. -/
theorem qwant_no_result_marker_wins (self : SearchResultParser)
    (query : String) (page : Nat) (user_agent : String)
    (fetch : String → List (String × String) → Except EngineError Html)
    (ss : Nat) (hm : List (String × String)) (doc : Html)
    (hh : headerMapTryFrom (qwantHeaderEntries user_agent) = .ok hm)
    (hf : fetch (qwant_url query page) hm = .ok doc)
    (hnr : self.parse_for_no_results doc ≠ []) :
    Qwant.results self query page user_agent fetch ss =
      .error .EmptyResultSet :=
  results_marker_eval self query page user_agent fetch ss hm doc hh hf hnr

/-- Witness for C1: the fixture document carries the marker and an
apparent item container, and the call returns `EmptyResultSet`. -/
theorem qwant_no_result_marker_wins_witness :
    qwantParser.parse_for_no_results fixtureQwantDoc ≠ [] ∧
    Qwant.results qwantParser "apple" 1 "Mozilla/5.0"
      (fun _ _ => .ok fixtureQwantDoc) 0 = .error .EmptyResultSet :=
  ⟨List.cons_ne_nil _ _,
   qwant_no_result_marker_wins qwantParser "apple" 1 "Mozilla/5.0"
     (fun _ _ => .ok fixtureQwantDoc) 0 fixtureHeaderMap fixtureQwantDoc
     rfl rfl (List.cons_ne_nil _ _)⟩

/-- C2: `Qwant::new` configures the no-result-marker selector identical to
the title-container selector; hence for every fetched document in which
the title-container selector matches at least one element, `results`
returns `Err(EmptyResultSet)`, and whenever `results` returns `ok` the
returned mapping is empty. -/
theorem qwant_new_degenerate_selectors :
    Qwant.new = .ok qwantParser ∧
    qwantParser.no_result_container_selector =
      qwantParser.title_container_selector ∧
    (∀ (query : String) (page : Nat) (user_agent : String)
      (fetch : String → List (String × String) → Except EngineError Html)
      (ss : Nat) (hm : List (String × String)) (doc : Html),
      headerMapTryFrom (qwantHeaderEntries user_agent) = .ok hm →
      fetch (qwant_url query page) hm = .ok doc →
      doc.topSelect qwantParser.title_container_selector ≠ [] →
      Qwant.results qwantParser query page user_agent fetch ss =
        .error .EmptyResultSet) ∧
    (∀ (query : String) (page : Nat) (user_agent : String)
      (fetch : String → List (String × String) → Except EngineError Html)
      (ss : Nat) (m : List (String × SearchResult)),
      Qwant.results qwantParser query page user_agent fetch ss = .ok m →
      m = []) := by
  refine ⟨rfl, rfl, ?_, ?_⟩
  · intro query page user_agent fetch ss hm doc hh hf hts
    exact results_marker_eval qwantParser query page user_agent fetch ss hm
      doc hh hf hts
  · intro query page user_agent fetch ss m h
    obtain ⟨hm, doc, hh, hf, hnr, hcol⟩ :=
      results_ok_inv qwantParser query page user_agent fetch ss m h
    have hts : doc.topSelect qwantParser.title_container_selector = [] := hnr
    subst hcol
    simp [collectResults, extractRecords, hts]

/-- Witness for C2: with items present the call returns `EmptyResultSet`;
a successful call (fixture document without matches) returns the empty
mapping. -/
theorem qwant_new_degenerate_selectors_witness :
    Qwant.results qwantParser "apple" 1 "Mozilla/5.0"
      (fun _ _ => .ok fixtureQwantDoc) 0 = .error .EmptyResultSet ∧
    ∃ m, Qwant.results qwantParser "apple" 2 "Mozilla/5.0"
      (fun _ _ => .ok (fixtureDoc [])) 0 = .ok m ∧ m = [] :=
  ⟨qwant_new_degenerate_selectors.2.2.1 "apple" 1 "Mozilla/5.0"
     (fun _ _ => .ok fixtureQwantDoc) 0 fixtureHeaderMap fixtureQwantDoc
     rfl rfl (List.cons_ne_nil _ _),
   ⟨[], rfl, qwant_new_degenerate_selectors.2.2.2 "apple" 2 "Mozilla/5.0"
     (fun _ _ => .ok (fixtureDoc [])) 0 [] rfl⟩⟩

/-! Lemmas about the url-keyed mapping. -/

/-- Collecting one more record inserts it into the collected mapping. -/
theorem collectResults_append_singleton (rs : List SearchResult)
    (r : SearchResult) :
    collectResults (rs ++ [r]) = insertKV (collectResults rs) r.url r := by
  simp [collectResults, List.foldl_append]

/-- Records whose key survives the deleting filter never carry the deleted
key. -/
theorem filter_eq_key_filter_ne_key (m : List (String × SearchResult))
    (u : String) :
    (m.filter (fun q => q.1 ≠ u)).filter (fun pr => pr.1 = u) = [] := by
  induction m with
  | nil => rfl
  | cons p ps ih =>
    by_cases h : p.1 = u
    · simp [List.filter_cons, h, ih]
    · simp [List.filter_cons, h, ih]

/-- Deleting one key leaves the records of a different key untouched. -/
theorem filter_eq_key_filter_ne_other (m : List (String × SearchResult))
    (u k : String) (hne : k ≠ u) :
    (m.filter (fun q => q.1 ≠ k)).filter (fun pr => pr.1 = u) =
      m.filter (fun pr => pr.1 = u) := by
  rw [List.filter_filter]
  apply List.filter_congr
  intro pr _
  by_cases h : pr.1 = u
  · have hk : pr.1 ≠ k := fun hh => hne (hh ▸ h)
    have huk : ¬u = k := fun hh => hne hh.symm
    simp [h, hk, huk]
  · simp [h]

/-- The records of key `u` after one insertion: the inserted record alone
if it carries key `u`, the previous ones otherwise. -/
theorem filter_key_insertKV (m : List (String × SearchResult))
    (v : SearchResult) (u : String) :
    (insertKV m v.url v).filter (fun pr => pr.1 = u) =
      if v.url = u then [(u, v)] else m.filter (fun pr => pr.1 = u) := by
  unfold insertKV
  rw [List.filter_append]
  by_cases h : v.url = u
  · rw [if_pos h, h, filter_eq_key_filter_ne_key]
    simp
  · rw [if_neg h, filter_eq_key_filter_ne_other m u v.url h]
    simp [h]

/-- The records of key `u` in the collected mapping: exactly the last
extracted record carrying url `u`, when there is one. -/
theorem filter_collectResults (u : String) (rs : List SearchResult) :
    (collectResults rs).filter (fun pr => pr.1 = u) =
      ((rs.filter (fun r => r.url = u)).getLast?).toList.map
        (fun r => (u, r)) := by
  induction rs using List.reverseRecOn with
  | nil => rfl
  | append_singleton rs r ih =>
    rw [collectResults_append_singleton, filter_key_insertKV]
    by_cases h : r.url = u
    · rw [if_pos h]
      simp [List.filter_append, h, List.getLast?_concat]
    · rw [if_neg h, ih]
      congr 1
      simp [List.filter_append, h]

/-- Folding insertions over records with pairwise distinct urls, starting
from a mapping whose keys are disjoint from those urls, appends the
records in order. -/
theorem foldl_insertKV_of_nodup :
    ∀ (rs : List SearchResult) (m : List (String × SearchResult)),
      (∀ r ∈ rs, ∀ pr ∈ m, pr.1 ≠ r.url) →
      (rs.map SearchResult.url).Nodup →
      rs.foldl (fun acc r => insertKV acc r.url r) m =
        m ++ rs.map (fun r => (r.url, r)) := by
  intro rs
  induction rs with
  | nil => intro m _ _; simp
  | cons r rs ih =>
    intro m hdisj hnd
    rw [List.foldl_cons]
    have hins : insertKV m r.url r = m ++ [(r.url, r)] := by
      unfold insertKV
      congr 1
      apply List.filter_eq_self.mpr
      intro pr hpr
      simpa using hdisj r (by simp) pr hpr
    rw [hins, ih (m ++ [(r.url, r)]) ?_ (List.nodup_cons.mp hnd).2]
    · simp
    · intro r' hr' pr hpr
      rcases List.mem_append.mp hpr with hpm | hps
      · exact hdisj r' (List.mem_cons_of_mem _ hr') pr hpm
      · have hpr2 : pr = (r.url, r) := by simpa using hps
        rw [hpr2]
        show r.url ≠ r'.url
        intro hEq
        have hmem : r.url ∈ rs.map SearchResult.url := by
          rw [hEq]
          exact List.mem_map_of_mem _ hr'
        exact (List.nodup_cons.mp hnd).1 hmem

/-- With pairwise distinct urls the collected mapping is the record list
itself, in document order. -/
theorem collectResults_of_nodup (rs : List SearchResult)
    (h : (rs.map SearchResult.url).Nodup) :
    collectResults rs = rs.map (fun r => (r.url, r)) := by
  have := foldl_insertKV_of_nodup rs []
    (by intro _ _ pr hpr; cases hpr) h
  simpa [collectResults] using this

/-- Every pair of the collected mapping is one of the records, keyed by
its url. -/
theorem mem_foldl_insertKV :
    ∀ (rs : List SearchResult) (m : List (String × SearchResult))
      (pr : String × SearchResult),
      pr ∈ rs.foldl (fun acc r => insertKV acc r.url r) m →
      pr ∈ m ∨ (pr.2 ∈ rs ∧ pr.1 = pr.2.url) := by
  intro rs
  induction rs with
  | nil => intro m pr h; exact Or.inl h
  | cons r rs ih =>
    intro m pr h
    rw [List.foldl_cons] at h
    rcases ih _ pr h with h2 | h2
    · unfold insertKV at h2
      rcases List.mem_append.mp h2 with h3 | h3
      · exact Or.inl (List.mem_of_mem_filter h3)
      · have h4 : pr = (r.url, r) := by simpa using h3
        exact Or.inr (by simp [h4])
    · exact Or.inr ⟨List.mem_cons_of_mem _ h2.1, h2.2⟩

/-- Membership in the collected mapping. -/
theorem mem_collectResults (rs : List SearchResult)
    (pr : String × SearchResult) (h : pr ∈ collectResults rs) :
    pr.2 ∈ rs ∧ pr.1 = pr.2.url := by
  rcases mem_foldl_insertKV rs [] pr h with h2 | h2
  · cases h2
  · exact h2

/-- Every extracted record is the Qwant mapper applied to some located
triple: trimmed fields and the qwant engine tag. -/
theorem mem_extractRecords (p : SearchResultParser) (doc : Html)
    (r : SearchResult) (h : r ∈ extractRecords p doc) :
    ∃ t u d : Node,
      r = SearchResult.new (strTrim t.innerHtml) (strTrim u.innerHtml)
        (strTrim d.innerHtml) ["qwant"] := by
  rcases List.mem_filterMap.mp h with ⟨a, _, hfa⟩
  unfold extractItem at hfa
  cases htrip : p.extractTriple a with
  | none => rw [htrip] at hfa; cases hfa
  | some tud =>
    rw [htrip] at hfa
    obtain ⟨t, u, d⟩ := tud
    simp only [qwantBuilder, Option.some.injEq] at hfa
    exact ⟨t, u, d, hfa.symm⟩

/-- A filter map over a list where the function succeeds everywhere keeps
the length. -/
theorem length_filterMap_of_isSome {α β : Type} (f : α → Option β) :
    ∀ (l : List α), (∀ a ∈ l, (f a).isSome = true) →
      (l.filterMap f).length = l.length := by
  intro l
  induction l with
  | nil => intro _; rfl
  | cons a l ih =>
    intro h
    have ha := h a (by simp)
    cases hfa : f a with
    | none => rw [hfa] at ha; cases ha
    | some b =>
      rw [List.filterMap_cons, hfa]
      simp [ih (fun x hx => h x (List.mem_cons_of_mem _ hx))]

/-! Further fixture documents. -/

/-- Fixture document with two well-formed item containers with distinct
urls. -/
def fixtureDocTwo : Html :=
  fixtureDoc [fixtureAnchor " A " " ua " " da ",
    fixtureAnchor " B " " ub " " db "]

/-- Fixture document with the same two item containers as
`fixtureDocTwo` but in the opposite document order. -/
def fixtureDocTwoRev : Html :=
  fixtureDoc [fixtureAnchor " B " " ub " " db ",
    fixtureAnchor " A " " ua " " da "]

/-- Fixture document with one well-formed item container. -/
def fixtureDocOne : Html :=
  fixtureDoc [fixtureAnchor " A " " ua " " da "]

/-- Fixture document with two item containers yielding the same url. -/
def fixtureDocDup : Html :=
  fixtureDoc [fixtureAnchor " A " " u " " da ",
    fixtureAnchor " B " " u " " db "]

/-- Fixture document with a malformed container between two well-formed
ones. -/
def fixtureDocBad : Html :=
  fixtureDoc [fixtureAnchor " A " " ua " " da ", fixtureBadAnchor,
    fixtureAnchor " B " " ub " " db "]

/-- Counterexample to C4 as stated: the returned mapping is a
`std::collections::HashMap` (qwant.rs lines 8 and 65) and does not
preserve insertion order.  Two fixture documents holding the same two
well-formed containers in opposite document orders have different
extraction (insertion) orders, yet `Qwant::results` returns the identical
`HashMap` value for both — the returned mapping carries no insertion
order at all, so the order cannot be preserved in it. -/
theorem qwant_results_order_not_observable :
    extractRecords fixtureParser fixtureDocTwo ≠
      extractRecords fixtureParser fixtureDocTwoRev ∧
    Qwant.results fixtureParser "apple" 1 "Mozilla/5.0"
      (fun _ _ => .ok fixtureDocTwo) 0 =
      .ok (collectResults (extractRecords fixtureParser fixtureDocTwo)) ∧
    Qwant.results fixtureParser "apple" 1 "Mozilla/5.0"
      (fun _ _ => .ok fixtureDocTwoRev) 0 =
      .ok (collectResults (extractRecords fixtureParser fixtureDocTwoRev)) ∧
    hashMapContent (collectResults
        (extractRecords fixtureParser fixtureDocTwo)) =
      hashMapContent (collectResults
        (extractRecords fixtureParser fixtureDocTwoRev)) := by
  refine ⟨by decide, rfl, rfl, ?_⟩
  have e1 : collectResults (extractRecords fixtureParser fixtureDocTwo) =
      [("ua", SearchResult.new "A" "ua" "da" ["qwant"]),
       ("ub", SearchResult.new "B" "ub" "db" ["qwant"])] := rfl
  have e2 : collectResults (extractRecords fixtureParser fixtureDocTwoRev) =
      [("ub", SearchResult.new "B" "ub" "db" ["qwant"]),
       ("ua", SearchResult.new "A" "ua" "da" ["qwant"])] := rfl
  rw [e1, e2]
  funext k
  unfold hashMapContent
  by_cases ha : k = "ua" <;> by_cases hb : k = "ub" <;>
    simp_all [List.filter_cons, eq_comm]

/-- C4 (amended): for every fetched document whose item containers are
all well-formed and yield pairwise distinct urls, `Qwant::results`
extracts the records in document order and inserts them into the
url-keyed mapping in that order, and the returned mapping holds exactly
one record per container — its content is exactly the extracted records
keyed by url; the mapping itself, an unordered `HashMap`, exposes no
entry order. -/
theorem qwant_results_document_order_content (self : SearchResultParser)
    (query : String) (page : Nat) (user_agent : String)
    (fetch : String → List (String × String) → Except EngineError Html)
    (ss : Nat) (hm : List (String × String)) (doc : Html)
    (hh : headerMapTryFrom (qwantHeaderEntries user_agent) = .ok hm)
    (hf : fetch (qwant_url query page) hm = .ok doc)
    (hnr : self.parse_for_no_results doc = [])
    (hwf : ∀ a ∈ doc.topSelect self.title_container_selector,
      (self.extractTriple a).isSome = true)
    (hnd : ((extractRecords self doc).map SearchResult.url).Nodup) :
    Qwant.results self query page user_agent fetch ss =
      .ok (collectResults (extractRecords self doc)) ∧
    (collectResults (extractRecords self doc)).Perm
      ((extractRecords self doc).map (fun r => (r.url, r))) ∧
    (extractRecords self doc).length =
      (doc.topSelect self.title_container_selector).length := by
  refine ⟨results_eval self query page user_agent fetch ss hm doc hh hf hnr,
    ?_, ?_⟩
  · rw [collectResults_of_nodup _ hnd]
  · unfold extractRecords
    apply length_filterMap_of_isSome
    intro a ha
    have hsome := hwf a ha
    unfold extractItem
    cases htrip : self.extractTriple a with
    | none => simp [htrip] at hsome
    | some tud =>
      obtain ⟨t, u, d⟩ := tud
      rfl

/-- Witness for the amended C4 on the two-container fixture document. -/
theorem qwant_results_document_order_content_witness :
    Qwant.results fixtureParser "apple" 1 "Mozilla/5.0"
      (fun _ _ => .ok fixtureDocTwo) 0 =
      .ok (collectResults (extractRecords fixtureParser fixtureDocTwo)) ∧
    (collectResults (extractRecords fixtureParser fixtureDocTwo)).Perm
      ((extractRecords fixtureParser fixtureDocTwo).map
        (fun r => (r.url, r))) ∧
    (extractRecords fixtureParser fixtureDocTwo).length = 2 := by
  have h := qwant_results_document_order_content fixtureParser "apple" 1
    "Mozilla/5.0" (fun _ _ => .ok fixtureDocTwo) 0 fixtureHeaderMap
    fixtureDocTwo rfl rfl rfl
    (by
      intro a ha
      have ha2 : a ∈ [fixtureAnchor " A " " ua " " da ",
        fixtureAnchor " B " " ub " " db "] := ha
      rcases List.mem_cons.mp ha2 with hx | h2
      · rw [hx]; rfl
      · rcases List.mem_cons.mp h2 with hx | h3
        · rw [hx]; rfl
        · exact absurd h3 (List.not_mem_nil a))
    (by decide)
  exact ⟨h.1, h.2.1, h.2.2.trans rfl⟩

/-- C6: every record in a mapping successfully returned by
`Qwant::results` is keyed by its url, carries the trimmed title, url and
description of a located triple and the engine tag `qwant`. -/
theorem qwant_results_trimmed_and_tagged (self : SearchResultParser)
    (query : String) (page : Nat) (user_agent : String)
    (fetch : String → List (String × String) → Except EngineError Html)
    (ss : Nat) (m : List (String × SearchResult))
    (h : Qwant.results self query page user_agent fetch ss = .ok m) :
    ∀ pr ∈ m, pr.1 = pr.2.url ∧ pr.2.engine = ["qwant"] ∧
      ∃ t u d : Node,
        pr.2 = SearchResult.new (strTrim t.innerHtml) (strTrim u.innerHtml)
          (strTrim d.innerHtml) ["qwant"] := by
  intro pr hpr
  obtain ⟨hm, doc, hh, hf, hnr, hcol⟩ :=
    results_ok_inv self query page user_agent fetch ss m h
  subst hcol
  have hmem := mem_collectResults _ pr hpr
  obtain ⟨t, u, d, hr⟩ := mem_extractRecords self doc pr.2 hmem.1
  refine ⟨hmem.2, ?_, t, u, d, hr⟩
  rw [hr]
  exact rfl

/-- Witness for C6 on the one-container fixture document with padded
texts, instantiated at the single returned record. -/
theorem qwant_results_trimmed_and_tagged_witness :
    ("ua", SearchResult.new "A" "ua" "da" ["qwant"]).1 =
      ("ua", SearchResult.new "A" "ua" "da" ["qwant"]).2.url ∧
    ("ua", SearchResult.new "A" "ua" "da" ["qwant"]).2.engine = ["qwant"] ∧
    ∃ t u d : Node,
      ("ua", SearchResult.new "A" "ua" "da" ["qwant"]).2 =
        SearchResult.new (strTrim t.innerHtml) (strTrim u.innerHtml)
          (strTrim d.innerHtml) ["qwant"] :=
  qwant_results_trimmed_and_tagged fixtureParser "apple" 1 "Mozilla/5.0"
    (fun _ _ => .ok fixtureDocOne) 0
    [("ua", SearchResult.new "A" "ua" "da" ["qwant"])] rfl
    ("ua", SearchResult.new "A" "ua" "da" ["qwant"])
    (List.mem_cons_self _ _)

/-- C7: when at least two extracted records carry the same url, the
mapping `Qwant::results` returns holds exactly one record for that url,
the last-seen one in document order. -/
theorem qwant_results_duplicate_url_last_wins (self : SearchResultParser)
    (query : String) (page : Nat) (user_agent : String)
    (fetch : String → List (String × String) → Except EngineError Html)
    (ss : Nat) (hm : List (String × String)) (doc : Html)
    (u : String) (r : SearchResult)
    (hh : headerMapTryFrom (qwantHeaderEntries user_agent) = .ok hm)
    (hf : fetch (qwant_url query page) hm = .ok doc)
    (hnr : self.parse_for_no_results doc = [])
    (_hdup : 2 ≤ ((extractRecords self doc).filter
      (fun s => s.url = u)).length)
    (hlast : ((extractRecords self doc).filter
      (fun s => s.url = u)).getLast? = some r) :
    Qwant.results self query page user_agent fetch ss =
      .ok (collectResults (extractRecords self doc)) ∧
    (collectResults (extractRecords self doc)).filter
      (fun pr => pr.1 = u) = [(u, r)] := by
  refine ⟨results_eval self query page user_agent fetch ss hm doc hh hf hnr,
    ?_⟩
  rw [filter_collectResults, hlast]
  rfl

/-- Witness for C7 on the duplicate-url fixture document: the later
record, with description `db`, is the one kept. -/
theorem qwant_results_duplicate_url_last_wins_witness :
    Qwant.results fixtureParser "apple" 1 "Mozilla/5.0"
      (fun _ _ => .ok fixtureDocDup) 0 =
      .ok (collectResults (extractRecords fixtureParser fixtureDocDup)) ∧
    (collectResults (extractRecords fixtureParser fixtureDocDup)).filter
      (fun pr => pr.1 = "u") =
      [("u", SearchResult.new "B" "u" "db" ["qwant"])] :=
  qwant_results_duplicate_url_last_wins fixtureParser "apple" 1 "Mozilla/5.0"
    (fun _ _ => .ok fixtureDocDup) 0 fixtureHeaderMap fixtureDocDup
    "u" (SearchResult.new "B" "u" "db" ["qwant"]) rfl rfl rfl
    (by decide) (by decide)

/-- C9: an item container missing its title, link or description element
is omitted without error: the call returns the mapping extracted from the
remaining containers. -/
theorem qwant_results_malformed_item_omitted (self : SearchResultParser)
    (query : String) (page : Nat) (user_agent : String)
    (fetch : String → List (String × String) → Except EngineError Html)
    (ss : Nat) (hm : List (String × String)) (doc : Html)
    (before after : List Anchor) (bad : Anchor)
    (hh : headerMapTryFrom (qwantHeaderEntries user_agent) = .ok hm)
    (hf : fetch (qwant_url query page) hm = .ok doc)
    (hnr : self.parse_for_no_results doc = [])
    (hsel : doc.topSelect self.title_container_selector =
      before ++ bad :: after)
    (hbad : (bad.sub self.title_selector).head? = none ∨
      (bad.sub self.link_selector).head? = none ∨
      (bad.sub self.desc_selector).head? = none) :
    Qwant.results self query page user_agent fetch ss =
      .ok (collectResults
        ((before ++ after).filterMap (extractItem self))) := by
  rw [results_eval self query page user_agent fetch ss hm doc hh hf hnr]
  have hnone : extractItem self bad = none := by
    unfold extractItem SearchResultParser.extractTriple
    rcases hbad with h | h | h <;>
      cases h1 : (bad.sub self.title_selector).head? <;>
      cases h2 : (bad.sub self.link_selector).head? <;>
      cases h3 : (bad.sub self.desc_selector).head? <;>
      simp_all
  congr 1
  congr 1
  unfold extractRecords
  rw [hsel]
  simp [List.filterMap_append, List.filterMap_cons, hnone]

/-- Witness for C9 on the fixture document whose middle container misses
its description element. -/
theorem qwant_results_malformed_item_omitted_witness :
    Qwant.results fixtureParser "apple" 1 "Mozilla/5.0"
      (fun _ _ => .ok fixtureDocBad) 0 =
      .ok (collectResults (([fixtureAnchor " A " " ua " " da "] ++
        [fixtureAnchor " B " " ub " " db "]).filterMap
          (extractItem fixtureParser))) :=
  qwant_results_malformed_item_omitted fixtureParser "apple" 1 "Mozilla/5.0"
    (fun _ _ => .ok fixtureDocBad) 0 fixtureHeaderMap fixtureDocBad
    [fixtureAnchor " A " " ua " " da "] [fixtureAnchor " B " " ub " " db "]
    fixtureBadAnchor rfl rfl rfl rfl (Or.inr (Or.inr rfl))
